import Mathlib

set_option maxHeartbeats 1000000

/-!
Shallow embedding of `src/esp_32_rfid_unicode_project.cpp`, an ESP32 RFID
attendance logger.  The SPIFFS filesystem is modelled as an association list
from paths to UTF-8 file contents (one Lean `Char` per Unicode scalar, since
all file contents are UTF-8 text); the in-memory user cache
(`std::map<String, String> userCache`) is modelled as an association list
with overwrite-on-insert semantics.  Side-effectful functions of the source
are modelled by explicit state passing; fallible I/O takes explicit
success/size parameters.
-/

/-- Association-list lookup: first binding wins (models both the SPIFFS path
table and `std::map::find`). -/
def alookup (k : String) : List (String × String) → Option String
  | [] => none
  | e :: t => if e.1 = k then some e.2 else alookup k t

/-- The SPIFFS filesystem: path ↦ file content. -/
abbrev FS := List (String × String)

/-- The in-memory `userCache` map: uid ↦ UTF-8 name. -/
abbrev Cache := List (String × String)

def fsGet (fs : FS) (p : String) : Option String := alookup p fs

/-- Models `SPIFFS.exists(p)`. -/
def fsExists (fs : FS) (p : String) : Bool := (fsGet fs p).isSome

/-- Models opening a path with `FILE_WRITE` and writing `c`: the file is
created or fully replaced.  An existing binding is replaced in place (the
directory listing keeps its order); a new file is appended to the listing. -/
def fsWrite (fs : FS) (p c : String) : FS :=
  if fsExists fs p then fs.map (fun e => if e.1 = p then (p, c) else e)
  else fs ++ [(p, c)]

/-- Models opening a path with `FILE_APPEND` and writing `s`. -/
def fsAppendFile (fs : FS) (p s : String) : FS :=
  match fsGet fs p with
  | some c => fsWrite fs p (c ++ s)
  | none => fsWrite fs p s

def cacheLookup (c : Cache) (k : String) : Option String := alookup k c

/-- Models `userCache[k] = v` on `std::map`: overwrite if present, else add. -/
def cacheInsert (c : Cache) (k v : String) : Cache :=
  if (alookup k c).isSome then c.map (fun e => if e.1 = k then (k, v) else e)
  else c ++ [(k, v)]

/-- Prefix test on character lists (used for the SPIFFS directory-listing
model, which lists the files under a path prefix). -/
def isPfx : List Char → List Char → Bool
  | [], _ => true
  | a :: as, l =>
    match l with
    | [] => false
    | b :: bs => (a = b) && isPfx as bs

/-! ## Constants of the source -/

def ATTENDANCE_CSV : String := "/attendance.csv"

def USERS_DIR : String := "/users"

/-- The 3-byte UTF-8 byte-order marker written at ledger creation;
as a Unicode scalar it is U+FEFF. -/
def BOM : String := "\uFEFF"

/-- The header written by `f.println("timestamp,uid,name,method")`
(Arduino `println` appends CR LF). -/
def csvHeaderLine : String := "timestamp,uid,name,method\r\n"

/-! ## CSV escaping (`csvEsc`) -/

/-- Body of the `csvEsc` loop: each `"` is emitted doubled. -/
def csvEscBody : List Char → List Char
  | [] => []
  | c :: t => (if c = '"' then ['"', c] else [c]) ++ csvEscBody t

/-- `String csvEsc(const String &s)` of the source: wrap in quotes and double
internal quotes. -/
def csvEsc (s : String) : String :=
  String.mk ('"' :: (csvEscBody s.data ++ ['"']))

/-- Modelled from the spec: the repository contains no CSV reader, so the
"standard CSV quoting rules" parse-back direction is modelled here.  Reads the
body of a quoted field: a doubled quote is one literal quote, a single quote
ends the field.  Returns the field body and the rest of the input. -/
def csvUnq : List Char → Option (List Char × List Char)
  | [] => none
  | c :: t =>
    if c = '"' then
      match t with
      | [] => some ([], [])
      | c2 :: t2 =>
        if c2 = '"' then Option.map (fun p => ('"' :: p.1, p.2)) (csvUnq t2)
        else some ([], c2 :: t2)
    else Option.map (fun p => (c :: p.1, p.2)) (csvUnq t)

/-- Modelled from the spec: parse one complete quoted CSV field under standard
CSV quoting rules. -/
def csvParseField (s : String) : Option String :=
  match s.data with
  | [] => none
  | c :: t =>
    if c = '"' then
      match csvUnq t with
      | none => none
      | some (body, rest) =>
        match rest with
        | [] => some (String.mk body)
        | _ :: _ => none
    else none

/-! ## Attendance ledger -/

/-- `void ensureAttendanceCSV()`: create the ledger with BOM and header iff it
does not exist. -/
def ensureAttendanceCSV (fs : FS) : FS :=
  if fsExists fs ATTENDANCE_CSV then fs
  else fsWrite fs ATTENDANCE_CSV (BOM ++ csvHeaderLine)

/-- The CSV line built by `logAttendance`: the timestamp is written raw; only
uid, name and method go through `csvEsc`. -/
def attendanceLine (ts uid nm method : String) : String :=
  ts ++ "," ++ csvEsc uid ++ "," ++ csvEsc nm ++ "," ++ csvEsc method

/-- `void logAttendance(uid, name, method)`: ensure the ledger exists, then
append one line (`println` adds CR LF).  `ts` is the `nowTimestamp()` value. -/
def logAttendance (fs : FS) (ts uid nm method : String) : FS :=
  fsAppendFile (ensureAttendanceCSV fs) ATTENDANCE_CSV
    (attendanceLine ts uid nm method ++ "\r\n")

/-! ## Identifier codec (`uidFromMfrc`) -/

/-- An uppercase hexadecimal digit, as produced by `sprintf("%02X", ...)`. -/
def hexDig (n : Nat) : Char :=
  if n < 10 then Char.ofNat (48 + n) else Char.ofNat (55 + n)

/-- `sprintf(buf, "%02X", b)` for a byte `b`: exactly two uppercase hex
characters. -/
def byteToHex (b : Fin 256) : List Char :=
  [hexDig (b.val / 16), hexDig (b.val % 16)]

/-- `String uidFromMfrc(const MFRC522::Uid &u)`: concatenate the two-digit
uppercase hex of each uid byte in scan order. -/
def uidFromMfrc (bytes : List (Fin 256)) : String :=
  String.mk (bytes.foldl (fun acc b => acc ++ byteToHex b) [])

/-- Character class `[0-9A-F]`. -/
def isHexUpper (c : Char) : Bool :=
  ('0' ≤ c && c ≤ '9') || ('A' ≤ c && c ≤ 'F')

/-! ## JSON serialization and parsing (ArduinoJson model)

ArduinoJson's text formatter escapes exactly the characters `"`, `\`,
backspace, form feed, newline, carriage return and tab inside strings;
all other characters (including multi-byte UTF-8) are written through
unchanged.  `doc[key].as<String>()` yields the stored string for a string
member and the serialization `"null"` for an absent member. -/

def jsonEscChar (c : Char) : List Char :=
  if c = '"' then ['\\', '"']
  else if c = '\\' then ['\\', '\\']
  else if c = '\x08' then ['\\', 'b']
  else if c = '\x0c' then ['\\', 'f']
  else if c = '\n' then ['\\', 'n']
  else if c = '\r' then ['\\', 'r']
  else if c = '\t' then ['\\', 't']
  else [c]

def jsonEscBody : List Char → List Char
  | [] => []
  | c :: t => jsonEscChar c ++ jsonEscBody t

/-- A string value as written by `serializeJson` (without the quotes). -/
def jsonEsc (s : String) : String := String.mk (jsonEscBody s.data)

def jsonUnescChar (e : Char) : Option Char :=
  if e = '"' then some '"'
  else if e = '\\' then some '\\'
  else if e = '/' then some '/'
  else if e = 'b' then some '\x08'
  else if e = 'f' then some '\x0c'
  else if e = 'n' then some '\n'
  else if e = 'r' then some '\r'
  else if e = 't' then some '\t'
  else none

/-- Parse the body of a JSON string after its opening quote; returns the
decoded body and the input after the closing quote. -/
def jsonStrBody : List Char → Option (List Char × List Char)
  | [] => none
  | c :: t =>
    if c = '"' then some ([], t)
    else if c = '\\' then
      match t with
      | [] => none
      | e :: t2 =>
        match jsonUnescChar e with
        | some d => Option.map (fun p => (d :: p.1, p.2)) (jsonStrBody t2)
        | none => none
    else Option.map (fun p => (c :: p.1, p.2)) (jsonStrBody t)

/-- Parse `"key":"value"` pairs separated by commas and ended by a closing
brace, as `deserializeJson` reads the object bodies this program produces.
The fuel argument bounds the number of pairs. -/
def parsePairsAux : Nat → List Char → Option (List (String × String) × List Char)
  | 0, _ => none
  | Nat.succ n, l =>
    match l with
    | [] => none
    | c :: r =>
      if c = '"' then
        match jsonStrBody r with
        | none => none
        | some (key, r2) =>
          match r2 with
          | [] => none
          | c2 :: r3 =>
            if c2 = ':' then
              match r3 with
              | [] => none
              | c3 :: r4 =>
                if c3 = '"' then
                  match jsonStrBody r4 with
                  | none => none
                  | some (val, r5) =>
                    match r5 with
                    | [] => none
                    | c4 :: r6 =>
                      if c4 = ',' then
                        Option.map
                          (fun p => ((String.mk key, String.mk val) :: p.1, p.2))
                          (parsePairsAux n r6)
                      else if c4 = '\x7d' then
                        some ([(String.mk key, String.mk val)], r6)
                      else none
                else none
            else none
      else none

/-- `deserializeJson` on one of this program's JSON objects (an object whose
members are strings, with no surrounding whitespace): `none` models a
`DeserializationError`. -/
def parseJsonObj (s : String) : Option (List (String × String)) :=
  match s.data with
  | [] => none
  | c :: r =>
    if c = '\x7b' then
      match parsePairsAux (r.length + 1) r with
      | none => none
      | some (pairs, rest) =>
        match rest with
        | [] => some pairs
        | _ :: _ => none
    else none

/-- `doc[k].as<String>()`: the stored string, or the serialization "null" of
an absent member. -/
def asString (pairs : List (String × String)) (k : String) : String :=
  match alookup k pairs with
  | some v => v
  | none => "null"

/-! ## User directory store -/

/-- `String path = String(USERS_DIR) + "/" + uid + ".json"`. -/
def userPath (uid : String) : String := USERS_DIR ++ "/" ++ uid ++ ".json"

/-- `serializeJson` of the document built by `writeUserToFS`. -/
def serializeUser (uid nm : String) : String :=
  "\x7b\"uid\":\"" ++ jsonEsc uid ++ "\",\"name\":\"" ++ jsonEsc nm ++ "\"\x7d"

/-- `bool writeUserToFS(uid, name)`.  `openOk` models whether
`SPIFFS.open(path, FILE_WRITE)` succeeds; opening with `FILE_WRITE` truncates
the file before anything is written.  `written` models the byte count that
`serializeJson(doc, f)` reports: the file receives that prefix of the full
serialization, and the function returns `false` exactly when the count is
zero. -/
def writeUserToFS (fs : FS) (uid nm : String) (openOk : Bool) (written : Nat) :
    FS × Bool :=
  if openOk then
    let content := (serializeUser uid nm).data.take written
    (fsWrite fs (userPath uid) (String.mk content), !content.isEmpty)
  else (fs, false)

/-- Parsing one stored user file in `loadUsers`: on a `deserializeJson`
success, read `doc["uid"]` and `doc["name"]` with `as<String>()`. -/
def parseUser (content : String) : Option (String × String) :=
  match parseJsonObj content with
  | some pairs => some (asString pairs "uid", asString pairs "name")
  | none => none

/-- A path listed when iterating the `/users` directory (SPIFFS emulates
directories by path prefix). -/
def isUserFile (p : String) : Bool := isPfx (USERS_DIR ++ "/").data p.data

/-- Arduino `String::endsWith(".json")`. -/
def endsWithJson (p : String) : Bool :=
  isPfx (".json").data.reverse p.data.reverse

/-- One iteration of the `loadUsers` while loop: only `.json` files are
considered, unparseable files are skipped, parsed files are inserted into the
cache. -/
def loadUsersStep (c : Cache) (e : String × String) : Cache :=
  if endsWithJson e.1 then
    match parseUser e.2 with
    | some r => cacheInsert c r.1 r.2
    | none => c
  else c

/-- `void loadUsers()`: clear `userCache`, then fold over the files of the
`/users` directory.  `prev` is the cache before the call; `userCache.clear()`
discards it. -/
def loadUsers (fs : FS) (_prev : Cache) : Cache :=
  (fs.filter (fun e => isUserFile e.1)).foldl loadUsersStep []

/-- A store state is well formed when every parseable user file under
`/users` records the uid its path is keyed by — exactly the shape
`writeUserToFS` produces.  All states reachable through the store's own
write operation satisfy this. -/
def fsWellFormed (fs : FS) : Bool :=
  fs.all (fun e =>
    !(isUserFile e.1 && endsWithJson e.1) ||
      (match parseUser e.2 with
       | some r => userPath r.1 == e.1
       | none => true))

/-! ## Event broadcaster -/

/-- `broadcastScan`: the JSON message handed to `ws.textAll`. -/
def broadcastMsg (ts uid nm result : String) : String :=
  "\x7b\"timestamp\":\"" ++ jsonEsc ts ++ "\",\"uid\":\"" ++ jsonEsc uid ++
    "\",\"name\":\"" ++ jsonEsc nm ++ "\",\"result\":\"" ++ jsonEsc result ++ "\"\x7d"

/-! ## Scan reconciler -/

/-- Result of `processUID`: resolved name, outcome, filesystem after the
ledger write, and the broadcast messages emitted (in order). -/
structure ScanResult where
  rname : String
  result : String
  fs : FS
  broadcasts : List String

/-- `void processUID(const String &uid)`: look the uid up in `userCache`;
a hit resolves to the stored name with result "accepted", a miss to
"(unknown)" with result "denied"; then `logAttendance(uid, name, "rfid")`
and `broadcastScan(uid, name, result)`.  `ts` is the `nowTimestamp()`
value used during the call. -/
def processUID (cache : Cache) (fs : FS) (ts uid : String) : ScanResult :=
  match cacheLookup cache uid with
  | some n =>
    ⟨n, "accepted", logAttendance fs ts uid n "rfid",
      [broadcastMsg ts uid n "accepted"]⟩
  | none =>
    ⟨"(unknown)", "denied", logAttendance fs ts uid "(unknown)" "rfid",
      [broadcastMsg ts uid "(unknown)" "denied"]⟩

/-! ## Management endpoint -/

/-- `void handleAddUser(...)`: parse the body; 400 on a parse error; read
`uid` and `name` with `as<String>()`; 400 if either is the empty string;
otherwise `writeUserToFS` (500 on failure), then update `userCache` and
answer 200.  Returns (HTTP status, filesystem after, cache after). -/
def handleAddUser (fs : FS) (cache : Cache) (body : String)
    (openOk : Bool) (written : Nat) : Nat × FS × Cache :=
  match parseJsonObj body with
  | none => (400, fs, cache)
  | some pairs =>
    if (asString pairs "uid").length = 0 ∨ (asString pairs "name").length = 0 then
      (400, fs, cache)
    else
      match writeUserToFS fs (asString pairs "uid") (asString pairs "name") openOk written with
      | (fs2, false) => (500, fs2, cache)
      | (fs2, true) =>
        (200, fs2, cacheInsert cache (asString pairs "uid") (asString pairs "name"))

/-! ## Example states used by the concrete instances below -/

/-- A filesystem holding just the initialized ledger. -/
def exampleFS : FS := [(ATTENDANCE_CSV, BOM ++ csvHeaderLine)]

/-- The user cache of the worked example in the project notes. -/
def exampleCache : Cache := [("04A1B2C3", "Ada")]

/-- A filesystem holding one user record written by the store itself. -/
def exampleUsersFS : FS := [(userPath "AA", serializeUser "AA" "Ada")]

/-- A well-formed add-user request whose `name` field is present but empty. -/
def emptyNameBody : String := "\x7b\"uid\":\"0A0B0C\",\"name\":\"\"\x7d"

/-- An add-user request whose `name` field is absent altogether. -/
def missingNameBody : String := "\x7b\"uid\":\"0A0B0C\"\x7d"

/-! ## Basic lemmas about the filesystem model -/

theorem str_data_append (a b : String) : (a ++ b).data = a.data ++ b.data := rfl

theorem str_eq_of_data (a b : String) (h : a.data = b.data) : a = b := by
  cases a; cases b; exact congrArg String.mk h

theorem str_mk_data (s : String) : String.mk s.data = s := rfl

theorem str_append_assoc (a b c : String) : a ++ b ++ c = a ++ (b ++ c) := by
  apply str_eq_of_data
  simp [str_data_append]

theorem alookup_map_replace (k p : String) (c : String) (fs : List (String × String)) :
    alookup k (fs.map (fun e => if e.1 = p then (p, c) else e)) =
      if k = p then (if (alookup p fs).isSome then some c else none)
      else alookup k fs := by
  induction fs with
  | nil => simp [alookup]
  | cons e t ih =>
    by_cases hep : e.1 = p
    · by_cases hkp : k = p
      · subst hkp
        simp [alookup, hep, ih]
      · simp [alookup, hep, hkp, ih, Ne.symm hkp]
    · by_cases hek : e.1 = k
      · subst hek
        have hkp : ¬ e.1 = p := hep
        simp [alookup, hep, ih, hkp]
      · simp [alookup, hep, hek, ih]

theorem alookup_append_single (k p : String) (c : String) (fs : List (String × String)) :
    alookup k (fs ++ [(p, c)]) =
      match alookup k fs with
      | some v => some v
      | none => if p = k then some c else none := by
  induction fs with
  | nil => simp [alookup]
  | cons e t ih =>
    by_cases hek : e.1 = k
    · simp [alookup, hek]
    · simp [alookup, hek, ih]

theorem fsGet_fsWrite_same (fs : FS) (p c : String) :
    fsGet (fsWrite fs p c) p = some c := by
  unfold fsWrite fsExists fsGet
  by_cases h : (alookup p fs).isSome
  · simp [h, alookup_map_replace]
  · simp [h, alookup_append_single]
    cases hl : alookup p fs with
    | some v => rw [hl] at h; simp at h
    | none => simp

theorem fsGet_fsWrite_other (fs : FS) (p c q : String) (hq : q ≠ p) :
    fsGet (fsWrite fs p c) q = fsGet fs q := by
  unfold fsWrite fsExists fsGet
  by_cases h : (alookup p fs).isSome
  · simp [h, alookup_map_replace, hq]
  · simp [h, alookup_append_single]
    cases hl : alookup q fs with
    | some v => simp
    | none => simp [Ne.symm hq]

theorem cacheLookup_insert_same (c : Cache) (k v : String) :
    cacheLookup (cacheInsert c k v) k = some v := by
  unfold cacheInsert cacheLookup
  by_cases h : (alookup k c).isSome
  · simp [h, alookup_map_replace]
  · simp [h, alookup_append_single]
    cases hl : alookup k c with
    | some w => rw [hl] at h; simp at h
    | none => simp

theorem cacheLookup_insert_other (c : Cache) (k v q : String) (hq : q ≠ k) :
    cacheLookup (cacheInsert c k v) q = cacheLookup c q := by
  unfold cacheInsert cacheLookup
  by_cases h : (alookup k c).isSome
  · simp [h, alookup_map_replace, hq]
  · simp [h, alookup_append_single]
    cases hl : alookup q c with
    | some w => simp
    | none => simp [Ne.symm hq]

/-! ## String and list helpers -/

theorem isPfx_append (l m : List Char) : isPfx l (l ++ m) = true := by
  induction l with
  | nil => rfl
  | cons c t ih => simp [isPfx, ih]

theorem alookup_none_not_mem (p : String) (fs : List (String × String))
    (h : alookup p fs = none) : ∀ e ∈ fs, e.1 ≠ p := by
  induction fs with
  | nil => intro e he; cases he
  | cons e t ih =>
    intro e' he'
    by_cases hep : e.1 = p
    · simp [alookup, hep] at h
    · rcases List.mem_cons.mp he' with he' | he'
      · simpa [he'] using hep
      · exact ih (by simpa [alookup, hep] using h) e' he'

theorem alookup_isSome_mem (p : String) (fs : List (String × String))
    (h : (alookup p fs).isSome = true) : ∃ e ∈ fs, e.1 = p := by
  induction fs with
  | nil => simp [alookup] at h
  | cons e t ih =>
    by_cases hep : e.1 = p
    · exact ⟨e, List.mem_cons_self e t, hep⟩
    · rcases ih (by simpa [alookup, hep] using h) with ⟨e', he', hp'⟩
      exact ⟨e', List.mem_cons_of_mem _ he', hp'⟩

/-! ## CSV round trip -/

theorem csvUnq_cons (c : Char) (t : List Char) (hc : ¬ c = '"') :
    csvUnq (c :: t) = Option.map (fun p => (c :: p.1, p.2)) (csvUnq t) := by
  rw [csvUnq.eq_def]
  simp [hc]

theorem csvUnq_escBody (l : List Char) :
    csvUnq (csvEscBody l ++ ['"']) = some (l, []) := by
  induction l with
  | nil => rfl
  | cons c t ih =>
    by_cases hc : c = '"'
    · subst hc
      simp [csvEscBody, csvUnq, ih]
    · simp only [csvEscBody, if_neg hc, List.cons_append, List.nil_append]
      rw [csvUnq_cons c _ hc, ih]
      rfl

theorem csvParseField_csvEsc (s : String) : csvParseField (csvEsc s) = some s := by
  have h := csvUnq_escBody s.data
  simp [csvParseField, csvEsc, h, str_mk_data]

/-! ## Hex codec facts -/

theorem hexDig_hex : ∀ n : Fin 16, isHexUpper (hexDig n.val) = true := by decide

theorem byteToHex_length (b : Fin 256) : (byteToHex b).length = 2 := rfl

theorem byteToHex_hex (b : Fin 256) : ∀ c ∈ byteToHex b, isHexUpper c = true := by
  have h1 : b.val / 16 < 16 := by omega
  have h2 : b.val % 16 < 16 := by omega
  have e1 := hexDig_hex ⟨b.val / 16, h1⟩
  have e2 := hexDig_hex ⟨b.val % 16, h2⟩
  intro c hc
  rcases List.mem_cons.mp hc with h | h
  · subst h; exact e1
  · rcases List.mem_cons.mp h with h | h
    · subst h; exact e2
    · cases h

theorem uidFold_length (bs : List (Fin 256)) :
    ∀ acc : List Char,
      (bs.foldl (fun a b => a ++ byteToHex b) acc).length =
        acc.length + 2 * bs.length := by
  induction bs with
  | nil => intro acc; simp
  | cons b t ih =>
    intro acc
    rw [List.foldl_cons, ih (acc ++ byteToHex b), List.length_append,
      byteToHex_length, List.length_cons]
    omega

theorem uidFold_hex (bs : List (Fin 256)) :
    ∀ acc : List Char, (∀ c ∈ acc, isHexUpper c = true) →
      ∀ c ∈ bs.foldl (fun a b => a ++ byteToHex b) acc, isHexUpper c = true := by
  induction bs with
  | nil => intro acc h; simpa using h
  | cons b t ih =>
    intro acc h
    rw [List.foldl_cons]
    apply ih
    intro c hc
    rcases List.mem_append.mp hc with h' | h'
    · exact h c h'
    · exact byteToHex_hex b c h'

/-! ## Ledger append -/

theorem fsExists_of_fsGet (fs : FS) (p c : String) (h : fsGet fs p = some c) :
    fsExists fs p = true := by
  simp [fsExists, h]

theorem ensureAttendanceCSV_of_exists (fs : FS) (c : String)
    (h : fsGet fs ATTENDANCE_CSV = some c) : ensureAttendanceCSV fs = fs := by
  simp [ensureAttendanceCSV, fsExists_of_fsGet fs _ c h]

theorem logAttendance_append (fs : FS) (c ts uid nm method : String)
    (h : fsGet fs ATTENDANCE_CSV = some c) :
    fsGet (logAttendance fs ts uid nm method) ATTENDANCE_CSV =
      some (c ++ (attendanceLine ts uid nm method ++ "\r\n")) := by
  unfold logAttendance
  rw [ensureAttendanceCSV_of_exists fs c h]
  unfold fsAppendFile
  rw [h]
  exact fsGet_fsWrite_same _ _ _

theorem jsonStrBody_esc (e d : Char) (r : List Char) (h : jsonUnescChar e = some d) :
    jsonStrBody ('\\' :: e :: r) =
      Option.map (fun p => (d :: p.1, p.2)) (jsonStrBody r) := by
  rw [jsonStrBody.eq_def]
  simp [h]

theorem jsonStrBody_plain (c : Char) (r : List Char) (h1 : ¬ c = '"') (h2 : ¬ c = '\\') :
    jsonStrBody (c :: r) = Option.map (fun p => (c :: p.1, p.2)) (jsonStrBody r) := by
  rw [jsonStrBody.eq_def]
  simp [h1, h2]

theorem jsonStrBody_escBody (l : List Char) (rest : List Char) :
    jsonStrBody (jsonEscBody l ++ '"' :: rest) = some (l, rest) := by
  induction l with
  | nil =>
    show jsonStrBody ('"' :: rest) = some ([], rest)
    rw [jsonStrBody.eq_def]
    simp
  | cons c t ih =>
    by_cases h1 : c = '"'
    · subst h1
      show jsonStrBody ('\\' :: '"' :: (jsonEscBody t ++ '"' :: rest)) = _
      rw [jsonStrBody_esc '"' '"' _ rfl, ih]
      rfl
    · by_cases h2 : c = '\\'
      · subst h2
        show jsonStrBody ('\\' :: '\\' :: (jsonEscBody t ++ '"' :: rest)) = _
        rw [jsonStrBody_esc '\\' '\\' _ rfl, ih]
        rfl
      · by_cases h3 : c = '\x08'
        · subst h3
          show jsonStrBody ('\\' :: 'b' :: (jsonEscBody t ++ '"' :: rest)) = _
          rw [jsonStrBody_esc 'b' '\x08' _ rfl, ih]
          rfl
        · by_cases h4 : c = '\x0c'
          · subst h4
            show jsonStrBody ('\\' :: 'f' :: (jsonEscBody t ++ '"' :: rest)) = _
            rw [jsonStrBody_esc 'f' '\x0c' _ rfl, ih]
            rfl
          · by_cases h5 : c = '\n'
            · subst h5
              show jsonStrBody ('\\' :: 'n' :: (jsonEscBody t ++ '"' :: rest)) = _
              rw [jsonStrBody_esc 'n' '\n' _ rfl, ih]
              rfl
            · by_cases h6 : c = '\r'
              · subst h6
                show jsonStrBody ('\\' :: 'r' :: (jsonEscBody t ++ '"' :: rest)) = _
                rw [jsonStrBody_esc 'r' '\r' _ rfl, ih]
                rfl
              · by_cases h7 : c = '\t'
                · subst h7
                  show jsonStrBody ('\\' :: 't' :: (jsonEscBody t ++ '"' :: rest)) = _
                  rw [jsonStrBody_esc 't' '\t' _ rfl, ih]
                  rfl
                · have hesc : jsonEscChar c = [c] := by
                    simp [jsonEscChar, h1, h2, h3, h4, h5, h6, h7]
                  have hbody : jsonEscBody (c :: t) = jsonEscChar c ++ jsonEscBody t := by
                    rw [jsonEscBody.eq_def]
                  rw [hbody, hesc]
                  simp only [List.cons_append, List.nil_append]
                  rw [jsonStrBody_plain c _ h1 h2, ih]
                  rfl

theorem serializeUser_data (uid nm : String) :
    (serializeUser uid nm).data =
      '\x7b' :: '"' :: 'u' :: 'i' :: 'd' :: '"' :: ':' :: '"' ::
        (((jsonEscBody uid.data ++
          ['"', ',', '"', 'n', 'a', 'm', 'e', '"', ':', '"']) ++
          jsonEscBody nm.data) ++ ['"', '\x7d']) := rfl

theorem parsePairsAux_user (fuel : Nat) (uid nm : String) (h : 2 ≤ fuel) :
    parsePairsAux fuel
      ('"' :: 'u' :: 'i' :: 'd' :: '"' :: ':' :: '"' ::
        (jsonEscBody uid.data ++
          ('"' :: ',' :: '"' :: 'n' :: 'a' :: 'm' :: 'e' :: '"' :: ':' :: '"' ::
            (jsonEscBody nm.data ++ ['"', '\x7d'])))) =
      some ([("uid", uid), ("name", nm)], []) := by
  obtain ⟨m, rfl⟩ : ∃ m, fuel = m + 2 := ⟨fuel - 2, by omega⟩
  have hkey1 : jsonStrBody ('u' :: 'i' :: 'd' :: '"' :: ':' :: '"' ::
      (jsonEscBody uid.data ++
        ('"' :: ',' :: '"' :: 'n' :: 'a' :: 'm' :: 'e' :: '"' :: ':' :: '"' ::
          (jsonEscBody nm.data ++ ['"', '\x7d'])))) =
      some (['u', 'i', 'd'], ':' :: '"' ::
        (jsonEscBody uid.data ++
          ('"' :: ',' :: '"' :: 'n' :: 'a' :: 'm' :: 'e' :: '"' :: ':' :: '"' ::
            (jsonEscBody nm.data ++ ['"', '\x7d'])))) :=
    jsonStrBody_escBody ['u', 'i', 'd'] _
  have hval1 : jsonStrBody
      (jsonEscBody uid.data ++
        ('"' :: ',' :: '"' :: 'n' :: 'a' :: 'm' :: 'e' :: '"' :: ':' :: '"' ::
          (jsonEscBody nm.data ++ ['"', '\x7d']))) =
      some (uid.data, ',' :: '"' :: 'n' :: 'a' :: 'm' :: 'e' :: '"' :: ':' :: '"' ::
        (jsonEscBody nm.data ++ ['"', '\x7d'])) :=
    jsonStrBody_escBody uid.data _
  have hkey2 : jsonStrBody ('n' :: 'a' :: 'm' :: 'e' :: '"' :: ':' :: '"' ::
      (jsonEscBody nm.data ++ ['"', '\x7d'])) =
      some (['n', 'a', 'm', 'e'], ':' :: '"' :: (jsonEscBody nm.data ++ ['"', '\x7d'])) :=
    jsonStrBody_escBody ['n', 'a', 'm', 'e'] _
  have hval2 : jsonStrBody (jsonEscBody nm.data ++ ['"', '\x7d']) =
      some (nm.data, ['\x7d']) :=
    jsonStrBody_escBody nm.data ['\x7d']
  rw [parsePairsAux.eq_def]
  simp only [hkey1, hval1]
  rw [parsePairsAux.eq_def]
  simp only [hkey2, hval2]
  simp [str_mk_data]

theorem parseJsonObj_serializeUser (uid nm : String) :
    parseJsonObj (serializeUser uid nm) = some [("uid", uid), ("name", nm)] := by
  unfold parseJsonObj
  rw [serializeUser_data]
  simp only [List.cons_append, List.nil_append, List.append_assoc]
  have hfuel : 2 ≤
      ('"' :: 'u' :: 'i' :: 'd' :: '"' :: ':' :: '"' ::
        (jsonEscBody uid.data ++
          (['"', ',', '"', 'n', 'a', 'm', 'e', '"', ':', '"'] ++
            (jsonEscBody nm.data ++ ['"', '\x7d'])))).length + 1 := by
    simp [List.length_cons]
  have := parsePairsAux_user
    (('"' :: 'u' :: 'i' :: 'd' :: '"' :: ':' :: '"' ::
      (jsonEscBody uid.data ++
        (['"', ',', '"', 'n', 'a', 'm', 'e', '"', ':', '"'] ++
          (jsonEscBody nm.data ++ ['"', '\x7d'])))).length + 1) uid nm hfuel
  simp only [List.cons_append, List.nil_append] at this
  rw [this]
  rfl

theorem parseUser_serializeUser (uid nm : String) :
    parseUser (serializeUser uid nm) = some (uid, nm) := by
  unfold parseUser
  rw [parseJsonObj_serializeUser]
  rfl

/-! ## Further helper lemmas -/

theorem str_length_mk (l : List Char) : (String.mk l).length = l.length := rfl

theorem fsExists_fsWrite_same (fs : FS) (p c : String) :
    fsExists (fsWrite fs p c) p = true := by
  simp [fsExists, fsGet_fsWrite_same]

theorem loadUsersFold_origin (L : List (String × String)) (acc : Cache) (k v : String)
    (h : cacheLookup (L.foldl loadUsersStep acc) k = some v) :
    cacheLookup acc k = some v ∨
      ∃ e ∈ L, endsWithJson e.1 = true ∧ parseUser e.2 = some (k, v) := by
  induction L generalizing acc with
  | nil => exact Or.inl h
  | cons e t ih =>
    rw [List.foldl_cons] at h
    rcases ih (loadUsersStep acc e) h with h0 | ⟨e', he', hj', hp'⟩
    · unfold loadUsersStep at h0
      by_cases hj : endsWithJson e.1
      · rw [if_pos hj] at h0
        cases hpe : parseUser e.2 with
        | none => rw [hpe] at h0; exact Or.inl h0
        | some r =>
          obtain ⟨a, b⟩ := r
          rw [hpe] at h0
          by_cases hk : k = a
          · subst hk
            rw [cacheLookup_insert_same] at h0
            have hv : b = v := Option.some.inj h0
            subst hv
            exact Or.inr ⟨e, List.mem_cons_self e t, hj, hpe⟩
          · rw [cacheLookup_insert_other acc a b k hk] at h0
            exact Or.inl h0
      · rw [if_neg hj] at h0
        exact Or.inl h0
    · exact Or.inr ⟨e', List.mem_cons_of_mem _ he', hj', hp'⟩

/-! ## Claim C6 -/

/-- C6: canonicalization of a raw uid of 1 to 10 bytes is deterministic (it
is a pure function of the byte list), yields a string of exactly twice the
input length whose characters all lie in [0-9A-F] (two uppercase hex digits
per byte, concatenated in scan order with no separator), and the empty byte
sequence yields the empty string. -/
theorem uidFromMfrc_spec (bytes : List (Fin 256))
    (_h : 1 ≤ bytes.length ∧ bytes.length ≤ 10) :
    (uidFromMfrc bytes).length = 2 * bytes.length ∧
    (∀ c ∈ (uidFromMfrc bytes).data, isHexUpper c = true) ∧
    uidFromMfrc [] = "" := by
  refine ⟨?_, ?_, rfl⟩
  · show (String.mk _).length = _
    rw [str_length_mk, uidFold_length]
    simp
  · intro c hc
    exact uidFold_hex bytes [] (by intro c h'; cases h') c hc

/-- Witness for C6 at the 4-byte uid 04 A1 B2 C3. -/
theorem uidFromMfrc_spec_witness :
    (1 ≤ ([4, 161, 178, 195] : List (Fin 256)).length ∧
      ([4, 161, 178, 195] : List (Fin 256)).length ≤ 10) ∧
    ((uidFromMfrc [4, 161, 178, 195]).length =
      2 * ([4, 161, 178, 195] : List (Fin 256)).length ∧
    (∀ c ∈ (uidFromMfrc [4, 161, 178, 195]).data, isHexUpper c = true) ∧
    uidFromMfrc [] = "") :=
  ⟨by decide, uidFromMfrc_spec [4, 161, 178, 195] (by decide)⟩

/-! ## Claim C7 -/

/-- C7: `csvEsc` wraps a field in double quotes, doubling each internal
quote — `Jo"hn` becomes `"Jo""hn"` — and parsing the escaped field back
under standard CSV quoting rules recovers the original string, for every
string. -/
theorem csvEsc_roundtrip :
    csvEsc "Jo\"hn" = "\"Jo\"\"hn\"" ∧
    ∀ s : String, csvParseField (csvEsc s) = some s :=
  ⟨by decide, csvParseField_csvEsc⟩

/-! ## Claim C8 -/

/-- C8: ledger initialization is idempotent, creates the BOM-prefixed file
with its header iff the ledger does not already exist, and leaves an
existing ledger completely untouched. -/
theorem ensureAttendanceCSV_spec (fs : FS) :
    ensureAttendanceCSV (ensureAttendanceCSV fs) = ensureAttendanceCSV fs ∧
    (fsExists fs ATTENDANCE_CSV = true → ensureAttendanceCSV fs = fs) ∧
    (fsExists fs ATTENDANCE_CSV = false →
      fsGet (ensureAttendanceCSV fs) ATTENDANCE_CSV = some (BOM ++ csvHeaderLine)) := by
  cases hex : fsExists fs ATTENDANCE_CSV with
  | true =>
    have h1 : ensureAttendanceCSV fs = fs := by simp [ensureAttendanceCSV, hex]
    exact ⟨by rw [h1, h1], fun _ => h1, fun hf => Bool.noConfusion hf⟩
  | false =>
    have h1 : ensureAttendanceCSV fs = fsWrite fs ATTENDANCE_CSV (BOM ++ csvHeaderLine) := by
      simp [ensureAttendanceCSV, hex]
    refine ⟨?_, fun hf => Bool.noConfusion hf, fun _ => ?_⟩
    · rw [h1]
      simp [ensureAttendanceCSV, fsExists_fsWrite_same]
    · rw [h1]
      exact fsGet_fsWrite_same _ _ _

/-- Witness for C8: on the empty filesystem the ledger is absent and gets
created with BOM and header. -/
theorem ensureAttendanceCSV_spec_witness :
    fsExists ([] : FS) ATTENDANCE_CSV = false ∧
    fsGet (ensureAttendanceCSV []) ATTENDANCE_CSV = some (BOM ++ csvHeaderLine) :=
  ⟨by decide, (ensureAttendanceCSV_spec []).2.2 (by decide)⟩

/-! ## Claim C3 -/

/-- C3 counterexample: the row written for a concrete event does not quote
its timestamp field — the line starts with the raw character 7, and it
differs from the row that would quote every field. -/
theorem logAttendance_timestamp_unquoted_cex :
    fsGet (logAttendance exampleFS "7" "04A1B2C3" "Ada" "rfid") ATTENDANCE_CSV =
      some (BOM ++ csvHeaderLine ++ "7,\"04A1B2C3\",\"Ada\",\"rfid\"\r\n") ∧
    (attendanceLine "7" "04A1B2C3" "Ada" "rfid").data.head? = some '7' ∧
    attendanceLine "7" "04A1B2C3" "Ada" "rfid" ≠
      csvEsc "7" ++ "," ++ csvEsc "04A1B2C3" ++ "," ++ csvEsc "Ada" ++ "," ++ csvEsc "rfid" := by
  decide

/-- C3 amended: `append` writes exactly one row; its uid, name and method
fields are each wrapped in double quotes with internal quotes escaped by
doubling (and recoverable by standard CSV unquoting), but the timestamp
field is written raw, without quotes. -/
theorem logAttendance_row_format (fs : FS) (c ts uid nm method : String)
    (h : fsGet fs ATTENDANCE_CSV = some c) :
    fsGet (logAttendance fs ts uid nm method) ATTENDANCE_CSV =
      some (c ++ (attendanceLine ts uid nm method ++ "\r\n")) ∧
    attendanceLine ts uid nm method =
      ts ++ "," ++ csvEsc uid ++ "," ++ csvEsc nm ++ "," ++ csvEsc method ∧
    csvParseField (csvEsc uid) = some uid ∧
    csvParseField (csvEsc nm) = some nm ∧
    csvParseField (csvEsc method) = some method :=
  ⟨logAttendance_append fs c ts uid nm method h, rfl,
    csvParseField_csvEsc uid, csvParseField_csvEsc nm, csvParseField_csvEsc method⟩

/-- Witness for the amended C3 at a concrete event. -/
theorem logAttendance_row_format_witness :
    fsGet exampleFS ATTENDANCE_CSV = some (BOM ++ csvHeaderLine) ∧
    (fsGet (logAttendance exampleFS "7" "04A1B2C3" "Ada" "rfid") ATTENDANCE_CSV =
      some ((BOM ++ csvHeaderLine) ++ (attendanceLine "7" "04A1B2C3" "Ada" "rfid" ++ "\r\n")) ∧
    attendanceLine "7" "04A1B2C3" "Ada" "rfid" =
      "7" ++ "," ++ csvEsc "04A1B2C3" ++ "," ++ csvEsc "Ada" ++ "," ++ csvEsc "rfid" ∧
    csvParseField (csvEsc "04A1B2C3") = some "04A1B2C3" ∧
    csvParseField (csvEsc "Ada") = some "Ada" ∧
    csvParseField (csvEsc "rfid") = some "rfid") :=
  ⟨by decide,
    logAttendance_row_format exampleFS (BOM ++ csvHeaderLine) "7" "04A1B2C3" "Ada" "rfid"
      (by decide)⟩

/-! ## Claim C1 -/

/-- C1: reconciling an identifier present in the user cache yields outcome
"accepted" with the stored display name; an absent identifier yields
"denied" with the sentinel "(unknown)"; in both cases exactly one row is
appended to the ledger and exactly one broadcast message carrying the
outcome is emitted. -/
theorem processUID_spec (cache : Cache) (fs : FS) (ts uid n c0 : String)
    (hl : fsGet fs ATTENDANCE_CSV = some c0) :
    (cacheLookup cache uid = some n →
      (processUID cache fs ts uid).result = "accepted" ∧
      (processUID cache fs ts uid).rname = n ∧
      fsGet (processUID cache fs ts uid).fs ATTENDANCE_CSV =
        some (c0 ++ (attendanceLine ts uid n "rfid" ++ "\r\n")) ∧
      (processUID cache fs ts uid).broadcasts = [broadcastMsg ts uid n "accepted"]) ∧
    (cacheLookup cache uid = none →
      (processUID cache fs ts uid).result = "denied" ∧
      (processUID cache fs ts uid).rname = "(unknown)" ∧
      fsGet (processUID cache fs ts uid).fs ATTENDANCE_CSV =
        some (c0 ++ (attendanceLine ts uid "(unknown)" "rfid" ++ "\r\n")) ∧
      (processUID cache fs ts uid).broadcasts =
        [broadcastMsg ts uid "(unknown)" "denied"]) := by
  constructor
  · intro hhit
    unfold processUID
    rw [hhit]
    exact ⟨rfl, rfl, logAttendance_append fs c0 ts uid n "rfid" hl, rfl⟩
  · intro hmiss
    unfold processUID
    rw [hmiss]
    exact ⟨rfl, rfl, logAttendance_append fs c0 ts uid "(unknown)" "rfid" hl, rfl⟩

/-- Witness for C1: the worked example — cache 04A1B2C3 ↦ Ada, hit case. -/
theorem processUID_spec_witness :
    fsGet exampleFS ATTENDANCE_CSV = some (BOM ++ csvHeaderLine) ∧
    cacheLookup exampleCache "04A1B2C3" = some "Ada" ∧
    ((processUID exampleCache exampleFS "7" "04A1B2C3").result = "accepted" ∧
    (processUID exampleCache exampleFS "7" "04A1B2C3").rname = "Ada" ∧
    fsGet (processUID exampleCache exampleFS "7" "04A1B2C3").fs ATTENDANCE_CSV =
      some ((BOM ++ csvHeaderLine) ++ (attendanceLine "7" "04A1B2C3" "Ada" "rfid" ++ "\r\n")) ∧
    (processUID exampleCache exampleFS "7" "04A1B2C3").broadcasts =
      [broadcastMsg "7" "04A1B2C3" "Ada" "accepted"]) :=
  ⟨by decide, by decide,
    (processUID_spec exampleCache exampleFS "7" "04A1B2C3" "Ada" (BOM ++ csvHeaderLine)
      (by decide)).1 (by decide)⟩

/-! ## Claim C2 -/

/-- C2 counterexample: reconciling the empty identifier is not rejected —
the call emits one broadcast message and changes the ledger file, where the
claim requires zero of each. -/
theorem processUID_empty_cex :
    (processUID exampleCache exampleFS "7" "").broadcasts.length = 1 ∧
    fsGet (processUID exampleCache exampleFS "7" "").fs ATTENDANCE_CSV ≠
      fsGet exampleFS ATTENDANCE_CSV := by
  decide

/-- C2 amended: `processUID` has no empty-identifier guard; with "" absent
from the cache, reconciling "" behaves exactly like any unknown identifier —
it appends one denied ledger row naming "(unknown)" and emits one broadcast.
(Only the hardware loop upstream prevents empty identifiers in practice.) -/
theorem processUID_empty_spec (cache : Cache) (fs : FS) (ts c0 : String)
    (hc : cacheLookup cache "" = none)
    (hl : fsGet fs ATTENDANCE_CSV = some c0) :
    (processUID cache fs ts "").result = "denied" ∧
    (processUID cache fs ts "").rname = "(unknown)" ∧
    fsGet (processUID cache fs ts "").fs ATTENDANCE_CSV =
      some (c0 ++ (attendanceLine ts "" "(unknown)" "rfid" ++ "\r\n")) ∧
    (processUID cache fs ts "").broadcasts = [broadcastMsg ts "" "(unknown)" "denied"] := by
  unfold processUID
  rw [hc]
  exact ⟨rfl, rfl, logAttendance_append fs c0 ts "" "(unknown)" "rfid" hl, rfl⟩

/-- Witness for the amended C2. -/
theorem processUID_empty_spec_witness :
    cacheLookup exampleCache "" = none ∧
    fsGet exampleFS ATTENDANCE_CSV = some (BOM ++ csvHeaderLine) ∧
    ((processUID exampleCache exampleFS "7" "").result = "denied" ∧
    (processUID exampleCache exampleFS "7" "").rname = "(unknown)" ∧
    fsGet (processUID exampleCache exampleFS "7" "").fs ATTENDANCE_CSV =
      some ((BOM ++ csvHeaderLine) ++ (attendanceLine "7" "" "(unknown)" "rfid" ++ "\r\n")) ∧
    (processUID exampleCache exampleFS "7" "").broadcasts =
      [broadcastMsg "7" "" "(unknown)" "denied"]) :=
  ⟨by decide, by decide,
    processUID_empty_spec exampleCache exampleFS "7" (BOM ++ csvHeaderLine)
      (by decide) (by decide)⟩

/-! ## Claim C4 -/

/-- C4 counterexample: with a prior record for AA on disk, an upsert whose
serialization writes zero bytes reports failure yet replaces the prior
record with an empty file; one that writes a single byte reports success yet
leaves a truncated one-character record.  Either way a truncated record is
visible, so the operation is not atomic. -/
theorem writeUserToFS_truncation_cex :
    (writeUserToFS [(userPath "AA", serializeUser "AA" "Old")] "AA" "New" true 0).2 = false ∧
    fsGet (writeUserToFS [(userPath "AA", serializeUser "AA" "Old")] "AA" "New" true 0).1
      (userPath "AA") = some "" ∧
    (writeUserToFS [(userPath "AA", serializeUser "AA" "Old")] "AA" "New" true 1).2 = true ∧
    fsGet (writeUserToFS [(userPath "AA", serializeUser "AA" "Old")] "AA" "New" true 1).1
      (userPath "AA") = some "\x7b" := by
  decide

/-- C4 amended: the upsert is atomic only against open failures: if the open
fails it reports failure and leaves the store unchanged.  Once the open
succeeds the target file is truncated before writing, so a serialization
that writes zero bytes reports failure with an empty record left visible,
and only a complete serialization stores the full new record (reporting
success). -/
theorem writeUserToFS_spec (fs : FS) (uid nm : String) (w : Nat) :
    writeUserToFS fs uid nm false w = (fs, false) ∧
    writeUserToFS fs uid nm true 0 = (fsWrite fs (userPath uid) "", false) ∧
    ((serializeUser uid nm).data.length ≤ w →
      writeUserToFS fs uid nm true w =
        (fsWrite fs (userPath uid) (serializeUser uid nm), true)) := by
  refine ⟨rfl, rfl, fun hw => ?_⟩
  show (fsWrite fs (userPath uid) (String.mk ((serializeUser uid nm).data.take w)),
    !((serializeUser uid nm).data.take w).isEmpty) = _
  rw [List.take_of_length_le hw, str_mk_data]
  have hne : (serializeUser uid nm).data.isEmpty = false := by
    rw [serializeUser_data]
    rfl
  rw [hne]
  rfl

/-- Witness for the amended C4: a complete write stores the new record. -/
theorem writeUserToFS_spec_witness :
    (serializeUser "AA" "Ada").data.length ≤ 30 ∧
    writeUserToFS [] "AA" "Ada" true 30 =
      (fsWrite [] (userPath "AA") (serializeUser "AA" "Ada"), true) :=
  ⟨by decide, (writeUserToFS_spec [] "AA" "Ada" 30).2.2 (by decide)⟩

/-! ## Claim C9 -/

/-- C9 counterexample: a request whose name field is missing altogether is
not rejected: `as<String>()` reads the absent member as the string "null",
validation passes, and the request alters both storage and cache, answering
200 where the claim requires 400 and no state change. -/
theorem handleAddUser_missing_cex :
    handleAddUser [] [] missingNameBody true 100 =
      (200, [(userPath "0A0B0C", serializeUser "0A0B0C" "null")],
        [("0A0B0C", "null")]) := by
  decide

/-- C9 amended: a request that fails to parse, or whose uid or name field is
present but empty, is rejected with a 400 response and leaves both the cache
and the store unchanged.  (A missing field, by contrast, is read as the
string "null" and accepted.) -/
theorem handleAddUser_empty_rejected (fs : FS) (cache : Cache) (body : String)
    (o : Bool) (w : Nat) :
    (parseJsonObj body = none → handleAddUser fs cache body o w = (400, fs, cache)) ∧
    (∀ pairs, parseJsonObj body = some pairs →
      asString pairs "uid" = "" ∨ asString pairs "name" = "" →
      handleAddUser fs cache body o w = (400, fs, cache)) := by
  constructor
  · intro h
    unfold handleAddUser
    rw [h]
  · intro pairs hp he
    unfold handleAddUser
    rw [hp]
    have hlen : (asString pairs "uid").length = 0 ∨ (asString pairs "name").length = 0 := by
      rcases he with h | h
      · left
        rw [h]
        rfl
      · right
        rw [h]
        rfl
    exact if_pos hlen

/-- Witness for the amended C9: the spec example request with an empty name
is rejected and changes nothing. -/
theorem handleAddUser_empty_rejected_witness :
    parseJsonObj emptyNameBody = some [("uid", "0A0B0C"), ("name", "")] ∧
    asString [("uid", "0A0B0C"), ("name", "")] "name" = "" ∧
    handleAddUser exampleFS exampleCache emptyNameBody true 100 =
      (400, exampleFS, exampleCache) :=
  ⟨by decide, by decide,
    (handleAddUser_empty_rejected exampleFS exampleCache emptyNameBody true 100).2
      [("uid", "0A0B0C"), ("name", "")] (by decide) (Or.inr (by decide))⟩

/-! ## Claim C10 -/

/-- C10: `loadUsers` fully replaces the cache: the result is independent of
the cache before the call, and every entry retrievable from the rebuilt
cache comes from a `.json` file of the `/users` directory that parsed
successfully to exactly that pair. -/
theorem loadUsers_replaces_cache (fs : FS) (prev : Cache) :
    loadUsers fs prev = loadUsers fs [] ∧
    ∀ k v, cacheLookup (loadUsers fs prev) k = some v →
      ∃ e ∈ fs, isUserFile e.1 = true ∧ endsWithJson e.1 = true ∧
        parseUser e.2 = some (k, v) := by
  constructor
  · rfl
  · intro k v h
    unfold loadUsers at h
    rcases loadUsersFold_origin _ [] k v h with h0 | ⟨e, he, hj, hp⟩
    · exact Option.noConfusion h0
    · have hmem := List.mem_filter.mp he
      exact ⟨e, hmem.1, by simpa using hmem.2, hj, hp⟩

/-- Witness for C10: a stale cache entry ZZ does not survive a reload, and
the reloaded entry AA ↦ Ada originates in the on-disk record. -/
theorem loadUsers_replaces_cache_witness :
    cacheLookup (loadUsers exampleUsersFS [("ZZ", "Zed")]) "AA" = some "Ada" ∧
    cacheLookup (loadUsers exampleUsersFS [("ZZ", "Zed")]) "ZZ" = none ∧
    ∃ e ∈ exampleUsersFS, isUserFile e.1 = true ∧ endsWithJson e.1 = true ∧
      parseUser e.2 = some ("AA", "Ada") :=
  ⟨by decide, by decide,
    (loadUsers_replaces_cache exampleUsersFS [("ZZ", "Zed")]).2 "AA" "Ada" (by decide)⟩

/-! ## Claim C5: helper lemmas -/

theorem writeUserToFS_complete (fs : FS) (uid nm : String) :
    writeUserToFS fs uid nm true (serializeUser uid nm).data.length =
      (fsWrite fs (userPath uid) (serializeUser uid nm), true) := by
  show (fsWrite fs (userPath uid)
      (String.mk ((serializeUser uid nm).data.take (serializeUser uid nm).data.length)),
    !((serializeUser uid nm).data.take (serializeUser uid nm).data.length).isEmpty) = _
  rw [List.take_length, str_mk_data]
  have hne : (serializeUser uid nm).data.isEmpty = false := by
    rw [serializeUser_data]
    rfl
  rw [hne]
  rfl

theorem userPath_inj (a b : String) (h : userPath a = userPath b) : a = b := by
  have hd : ("/users/".data ++ a.data) ++ ".json".data =
      ("/users/".data ++ b.data) ++ ".json".data := congrArg String.data h
  have h1 := List.append_cancel_right hd
  have h2 := List.append_cancel_left h1
  exact str_eq_of_data a b h2

theorem isUserFile_userPath (uid : String) : isUserFile (userPath uid) = true :=
  isPfx_append ("/users/").data (uid.data ++ (".json").data)

theorem endsWithJson_userPath (uid : String) : endsWithJson (userPath uid) = true := by
  unfold endsWithJson
  have h : (userPath uid).data = ("/users/".data ++ uid.data) ++ ".json".data := rfl
  rw [h, List.reverse_append]
  exact isPfx_append _ _

theorem fsWrite_mem_cases (fs : FS) (p c : String) (e : String × String)
    (he : e ∈ fsWrite fs p c) : (e.1 = p ∧ e.2 = c) ∨ (e.1 ≠ p ∧ e ∈ fs) := by
  unfold fsWrite at he
  by_cases hex : fsExists fs p
  · rw [if_pos hex] at he
    obtain ⟨e0, he0, hfe⟩ := List.mem_map.mp he
    by_cases h0 : e0.1 = p
    · rw [if_pos h0] at hfe
      exact Or.inl ⟨by rw [← hfe], by rw [← hfe]⟩
    · rw [if_neg h0] at hfe
      exact Or.inr ⟨by rw [← hfe]; exact h0, by rw [← hfe]; exact he0⟩
  · rw [if_neg hex] at he
    rcases List.mem_append.mp he with hin | hin
    · have hnone : alookup p fs = none := by
        cases hl : alookup p fs with
        | none => rfl
        | some v => exact absurd (by simp [fsExists, fsGet, hl]) hex
      exact Or.inr ⟨alookup_none_not_mem p fs hnone e hin, hin⟩
    · have : e = (p, c) := by simpa using hin
      exact Or.inl ⟨by rw [this], by rw [this]⟩

theorem fsWrite_mem_self (fs : FS) (p c : String) :
    ∃ e ∈ fsWrite fs p c, e.1 = p ∧ e.2 = c := by
  unfold fsWrite
  by_cases hex : fsExists fs p
  · rw [if_pos hex]
    obtain ⟨e0, he0, hp0⟩ := alookup_isSome_mem p fs hex
    refine ⟨(p, c), List.mem_map.mpr ⟨e0, he0, ?_⟩, rfl, rfl⟩
    rw [if_pos hp0]
  · rw [if_neg hex]
    exact ⟨(p, c), List.mem_append_right _ (List.mem_cons_self _ _), rfl, rfl⟩

theorem fsWellFormed_spec (fs : FS) (hwf : fsWellFormed fs = true) :
    ∀ e ∈ fs, isUserFile e.1 = true → endsWithJson e.1 = true →
      ∀ a b, parseUser e.2 = some (a, b) → userPath a = e.1 := by
  intro e he hufile hj a b hp
  have hb := List.all_eq_true.mp hwf e he
  rw [hufile, hj, hp] at hb
  simpa using hb

theorem loadUsersFold_preserve (L : List (String × String)) (k v : String) :
    ∀ acc : Cache, cacheLookup acc k = some v →
      (∀ e ∈ L, endsWithJson e.1 = true → ∀ a b, parseUser e.2 = some (a, b) →
        a = k → b = v) →
      cacheLookup (L.foldl loadUsersStep acc) k = some v := by
  induction L with
  | nil => intro acc hacc _; exact hacc
  | cons e t ih =>
    intro acc hacc hall
    rw [List.foldl_cons]
    have htail : ∀ e' ∈ t, endsWithJson e'.1 = true →
        ∀ a b, parseUser e'.2 = some (a, b) → a = k → b = v :=
      fun e' he' => hall e' (List.mem_cons_of_mem _ he')
    apply ih _ _ htail
    unfold loadUsersStep
    by_cases hj : endsWithJson e.1
    · rw [if_pos hj]
      cases hpe : parseUser e.2 with
      | none => exact hacc
      | some r =>
        obtain ⟨a, b⟩ := r
        by_cases hk : a = k
        · subst hk
          have hv : b = v := hall e (List.mem_cons_self e t) hj a b hpe rfl
          subst hv
          exact cacheLookup_insert_same acc a b
        · rw [cacheLookup_insert_other acc a b k (fun hh => hk hh.symm)]
          exact hacc
    · rw [if_neg hj]
      exact hacc

theorem loadUsersFold_hit (L : List (String × String)) (k v : String) :
    ∀ acc : Cache,
      (∃ e ∈ L, endsWithJson e.1 = true ∧ parseUser e.2 = some (k, v)) →
      (∀ e ∈ L, endsWithJson e.1 = true → ∀ a b, parseUser e.2 = some (a, b) →
        a = k → b = v) →
      cacheLookup (L.foldl loadUsersStep acc) k = some v := by
  induction L with
  | nil =>
    intro acc hmem _
    obtain ⟨e, he, _⟩ := hmem
    cases he
  | cons e t ih =>
    intro acc hmem hall
    rw [List.foldl_cons]
    have htail : ∀ e' ∈ t, endsWithJson e'.1 = true →
        ∀ a b, parseUser e'.2 = some (a, b) → a = k → b = v :=
      fun e' he' => hall e' (List.mem_cons_of_mem _ he')
    obtain ⟨e', he', hj', hp'⟩ := hmem
    rcases List.mem_cons.mp he' with heq | hin
    · subst heq
      apply loadUsersFold_preserve t k v _ _ htail
      unfold loadUsersStep
      rw [if_pos hj', hp']
      exact cacheLookup_insert_same acc k v
    · exact ih _ ⟨e', hin, hj', hp'⟩ htail

/-! ## Claim C5 -/

/-- C5: for every non-empty identifier and every display name (arbitrary
Unicode text), a successful upsert — the open succeeds and the
serialization is written in full — followed by a full reload yields a cache
mapping that identifier to that name, on any well-formed store state. -/
theorem upsert_then_loadAll (fs : FS) (prev : Cache) (uid nm : String)
    (hu : uid ≠ "") (hwf : fsWellFormed fs = true) :
    (writeUserToFS fs uid nm true (serializeUser uid nm).data.length).2 = true ∧
    cacheLookup
      (loadUsers (writeUserToFS fs uid nm true (serializeUser uid nm).data.length).1 prev)
      uid = some nm := by
  rw [writeUserToFS_complete]
  refine ⟨rfl, ?_⟩
  unfold loadUsers
  apply loadUsersFold_hit
  · obtain ⟨e, he, hp1, hp2⟩ := fsWrite_mem_self fs (userPath uid) (serializeUser uid nm)
    refine ⟨e, List.mem_filter.mpr ⟨he, ?_⟩, ?_, ?_⟩
    · show isUserFile e.1 = true
      rw [hp1]
      exact isUserFile_userPath uid
    · rw [hp1]
      exact endsWithJson_userPath uid
    · rw [hp2]
      exact parseUser_serializeUser uid nm
  · intro e he hj a b hp ha
    have he2 := List.mem_filter.mp he
    have hufile : isUserFile e.1 = true := by simpa using he2.2
    rcases fsWrite_mem_cases fs (userPath uid) (serializeUser uid nm) e he2.1 with
      ⟨hp1, hp2⟩ | ⟨hne, hmem⟩
    · rw [hp2, parseUser_serializeUser] at hp
      have h2 := Option.some.inj hp
      exact (congrArg Prod.snd h2).symm
    · have hup := fsWellFormed_spec fs hwf e hmem hufile hj a b hp
      subst ha
      exact absurd hup.symm hne

/-- Witness for C5: overwriting the stored record AA ↦ Ada with AA ↦ Grace
and reloading yields AA ↦ Grace. -/
theorem upsert_then_loadAll_witness :
    ("AA" : String) ≠ "" ∧ fsWellFormed exampleUsersFS = true ∧
    ((writeUserToFS exampleUsersFS "AA" "Grace" true
        (serializeUser "AA" "Grace").data.length).2 = true ∧
      cacheLookup
        (loadUsers (writeUserToFS exampleUsersFS "AA" "Grace" true
          (serializeUser "AA" "Grace").data.length).1 []) "AA" = some "Grace") :=
  ⟨by decide, by decide,
    upsert_then_loadAll exampleUsersFS [] "AA" "Grace" (by decide) (by decide)⟩
